import Mathlib

/-!
Shallow embedding of the text/vision fusion logic of the Ecofoodai
repository.  Two implementations are embedded:

* namespace `Rec`    — `src/image_recognition.py` (the strict meaningfulness
  filter, the gated `predict`, multi-pass OCR);
* namespace `RecNew` — `src/image_recognition_new.py` (the legacy filter,
  the ungated `predict`, single-pass OCR).

Strings are modelled as `List Char`.  The Python float arithmetic on the
small ratio/confidence constants of the source is exact at these scales and
is modelled with `ℚ`.  Because the library's rational arithmetic operations
are `@[irreducible]`, every rational that a definition has to *compute* is
written in an explicitly kernel-reducible form (`mkRat`, `qmul`, `ratioGt`);
bridge lemmas (`qmul_eq`, `ratioGt_iff`, `shareGe_iff`) prove these forms
equal to the literal arithmetic of the source, so the theorems can be stated
with plain `*`, `/` and the decimal constants.

OCR pass outcomes are modelled as `Option (List Char)`: `none` means that
pytesseract call raised, `some t` that it returned the raw text `t`.
-/

/-- Python `str.isspace` on the characters this program can meet:
space, tab, newline, carriage return, vertical tab, form feed. -/
def pyIsSpace (c : Char) : Bool :=
  c = ' ' || c = '\t' || c = '\n' || c = '\r' || c = Char.ofNat 11 || c = Char.ofNat 12

/-- The seven German letters the source mentions explicitly
(`äöüÄÖÜß` in its regular expressions). -/
def germanChars : List Char := ['ä', 'ö', 'ü', 'Ä', 'Ö', 'Ü', 'ß']

/-- Python `str.isalpha` restricted to ASCII letters plus the German letters
used by the repository. -/
def pyIsAlpha (c : Char) : Bool :=
  c.isAlpha || germanChars.contains c

/-- Python `str.isdigit` (ASCII digits). -/
def pyIsDigit (c : Char) : Bool := c.isDigit

/-- Python `str.isalnum` on the modelled character set. -/
def pyIsAlnum (c : Char) : Bool := pyIsAlpha c || pyIsDigit c

/-- A regex `\w` character: alphanumeric or underscore. -/
def isWordChar (c : Char) : Bool := pyIsAlnum c || c = '_'

/-- Python `str.lower` on one character (ASCII plus German capitals). -/
def pyToLower (c : Char) : Char :=
  if c = 'Ä' then 'ä' else if c = 'Ö' then 'ö' else if c = 'Ü' then 'ü'
  else c.toLower

/-- The uppercasing of the first character done by Python `str.capitalize`. -/
def pyToUpper (c : Char) : Char :=
  if c = 'ä' then 'Ä' else if c = 'ö' then 'Ö' else if c = 'ü' then 'Ü'
  else c.toUpper

/-- Python `str.lower` on a whole string. -/
def lowerList (l : List Char) : List Char := l.map pyToLower

/-- Python `str.capitalize`: first character uppercased, the rest lowercased. -/
def pyCapitalize : List Char → List Char
  | [] => []
  | c :: r => pyToUpper c :: r.map pyToLower

/-- Python `str.strip`: drop leading and trailing whitespace. -/
def pyStrip (l : List Char) : List Char :=
  ((l.dropWhile pyIsSpace).reverse.dropWhile pyIsSpace).reverse

/-- `startsWithL needle l` — `needle` is a prefix of `l`. -/
def startsWithL : List Char → List Char → Bool
  | [], _ => true
  | _ :: _, [] => false
  | a :: as, b :: bs => a = b && startsWithL as bs

/-- Python substring test `needle in haystack`. -/
def containsSub (needle : List Char) : List Char → Bool
  | [] => startsWithL needle []
  | c :: rest => startsWithL needle (c :: rest) || containsSub needle rest

/-- Python `str.split()` (no argument): split on whitespace runs, producing
no empty pieces.  The accumulator carries the current word reversed. -/
def splitWsAux : List Char → List Char → List (List Char)
  | [], acc => if acc.isEmpty then [] else [acc.reverse]
  | c :: rest, acc =>
    if pyIsSpace c then
      if acc.isEmpty then splitWsAux rest [] else acc.reverse :: splitWsAux rest []
    else splitWsAux rest (c :: acc)

def splitWs (l : List Char) : List (List Char) := splitWsAux l []

/-- Python `str.split('\n')`. -/
def splitOnNl : List Char → List (List Char)
  | [] => [[]]
  | c :: rest =>
    match splitOnNl rest with
    | [] => [[c]]
    | l :: ls => if c = '\n' then [] :: l :: ls else (c :: l) :: ls

/-- `sep.join(pieces)` for a one-character separator. -/
def joinSep (sep : Char) : List (List Char) → List Char
  | [] => []
  | [l] => l
  | l :: l2 :: ls => l ++ sep :: joinSep sep (l2 :: ls)

/-- The shared OCR clean-up of both `extract_text` implementations:
split into lines, strip each, drop empties, join with single spaces
(`' '.join(line.strip() for line in text.split('\n') if line.strip())`). -/
def cleanLines (s : List Char) : List Char :=
  joinSep ' ' (((splitOnNl s).map pyStrip).filter (fun l => !l.isEmpty))

/-- The regex substitution `re.sub(r'\s+', ' ', s)`: every whitespace run
becomes one space.  The flag records whether the previous kept character
closed a whitespace run. -/
def collapseWsAux : Bool → List Char → List Char
  | _, [] => []
  | prevWs, c :: rest =>
    if pyIsSpace c then
      if prevWs then collapseWsAux true rest else ' ' :: collapseWsAux true rest
    else c :: collapseWsAux false rest

def collapseWs (l : List Char) : List Char := collapseWsAux false l

/-- Python `str.isalpha` on a whole word: nonempty and all letters. -/
def isAlphaWord (l : List Char) : Bool := !l.isEmpty && l.all pyIsAlpha

/-- Number of letters in a string (`sum(c.isalpha() for c in s)`). -/
def letterCount (l : List Char) : ℕ := (l.filter pyIsAlpha).length

/-- Number of characters that are neither alphanumeric nor whitespace
(`sum(not c.isalnum() and not c.isspace() for c in text)`). -/
def specialCount (l : List Char) : ℕ :=
  (l.filter (fun c => !(pyIsAlnum c) && !(pyIsSpace c))).length

/-- Kernel-computable product of two rationals; `qmul_eq` proves it equal to
`a * b`. -/
def qmul (a b : ℚ) : ℚ := mkRat (a.num * b.num) (a.den * b.den)

theorem qmul_eq (a b : ℚ) : qmul a b = a * b := by
  rw [qmul, Rat.mul_def]
  simp [Rat.normalize_eq_mkRat]

/-- The Python float test `x / (y + 0.001) > t` for naturals `x`, `y`,
computed exactly after clearing the `0.001` guard denominator:
`x / (y + 1/1000) = 1000·x / (1000·y + 1)`.  `ratioGt_iff` proves the
equivalence with the literal form. -/
def ratioGt (x y : ℕ) (t : ℚ) : Bool := decide (mkRat (1000 * x) (1000 * y + 1) > t)

theorem mkRat_ratio_eq (x y : ℕ) :
    (mkRat (1000 * x) (1000 * y + 1) : ℚ) = (x : ℚ) / ((y : ℚ) + 0.001) := by
  rw [Rat.mkRat_eq_div]
  push_cast
  rw [div_eq_div_iff (by positivity) (by positivity)]
  ring_nf

theorem ratioGt_iff (x y : ℕ) (t : ℚ) :
    ratioGt x y t = true ↔ (x : ℚ) / ((y : ℚ) + 0.001) > t := by
  rw [ratioGt, decide_eq_true_iff, mkRat_ratio_eq]

/-- The Python float test `a >= L * 0.3` for naturals `a`, `L`, computed
exactly after clearing denominators; `shareGe_iff` proves the equivalence. -/
def shareGe (a L : ℕ) : Bool := decide (3 * L ≤ 10 * a)

theorem shareGe_iff (a L : ℕ) : shareGe a L = true ↔ (L : ℚ) * 0.3 ≤ (a : ℚ) := by
  rw [shareGe, decide_eq_true_iff]
  constructor <;> intro h
  · have h2 : ((3 * L : ℕ) : ℚ) ≤ ((10 * a : ℕ) : ℚ) := by exact_mod_cast h
    push_cast at h2
    nlinarith
  · have h2 : ((3 * L : ℕ) : ℚ) ≤ ((10 * a : ℕ) : ℚ) := by push_cast; nlinarith
    exact_mod_cast h2

/-- `max(words, key=len)`: first element of greatest length
(Python `max` only replaces on strictly greater key). -/
def maxByLen : List Char → List (List Char) → List Char
  | w, [] => w
  | w, x :: xs => if w.length < x.length then maxByLen x xs else maxByLen w xs

/-- A registry entry's product payload, and the synthesized products:
`{name, description, confidence_boost}`. -/
structure Product where
  name : List Char
  description : List Char
  confidence_boost : ℚ
deriving DecidableEq

/-- One element of the list returned by `predict`.  Absent optional dict
fields are modelled by `none` / `false`. -/
structure PredEntry where
  class_id : Int
  class_name : List Char
  class_description : List Char
  confidence : ℚ
  extracted_text : Option (List Char)
  identified_by_text : Bool
deriving DecidableEq

/-- `class_name.lower().replace(' ', '_').replace("'", '').replace(',', '')`. -/
def slug (name : List Char) : List Char :=
  ((lowerList name).map (fun c => if c = ' ' then '_' else c)).filter
    (fun c => c != Char.ofNat 39 && c != ',')

/-- One iteration of the keyword loop of `identify_product_from_text`:
on a case-insensitive substring match, score as
`len(key) * confidence_boost` and keep a strictly greater score. -/
def scanStep (text_lower : List Char) (acc : ℚ × Option Product)
    (kv : List Char × Product) : ℚ × Option Product :=
  if containsSub (lowerList kv.1) text_lower then
    if acc.1 < qmul (kv.1.length : ℚ) kv.2.confidence_boost then
      (qmul (kv.1.length : ℚ) kv.2.confidence_boost, some kv.2)
    else acc
  else acc

/-- The keyword loop of `identify_product_from_text`, shared by both
implementations (`best_score = 0`, `best_match = None` initially; the first
best match in dict order wins). -/
def scanRegistry (reg : List (List Char × Product)) (text_lower : List Char) : Option Product :=
  (reg.foldl (scanStep text_lower) ((0 : ℚ), (none : Option Product))).2

/-- The visual-results loop shared by both `predict` implementations
(`for i, (idx, prob) in enumerate(zip(top5_indices, top5_prob))`), which
attaches the extracted text to the first entry only when it is nonempty and
no text-based product was found. -/
def visEntries (ext : List Char) (tbp : Option Product) (cats : ℕ → List Char) :
    ℕ → List (ℕ × ℚ) → List PredEntry
  | _, [] => []
  | i, (idx, prob) :: rest =>
    { class_id := (idx : Int)
      class_name := slug (cats idx)
      class_description := cats idx
      confidence := prob
      extracted_text := if i = 0 ∧ ext ≠ [] ∧ tbp = none then some ext else none
      identified_by_text := false } :: visEntries ext tbp cats (i + 1) rest

/-- One OCR pass's contribution to the `results` list of `extract_text`
(`if text.strip(): results.append(text)`), given the pass's outcome. -/
def ocrPassResult (p : Option (List Char)) : List (List Char) :=
  match p with
  | none => []
  | some t => if (pyStrip t).isEmpty then [] else [t]

namespace Rec

/-! Embedding of `src/image_recognition.py`. -/

/-- `typ\s*\d+` matching at the head of `s`: literal `typ`, any whitespace,
then at least one digit (the character classes are disjoint, so the
backtracking regex succeeds exactly when the first character after the
whitespace run is a digit). -/
def typNumAt (s : List Char) : Bool :=
  startsWithL "typ".data s &&
    (match (s.drop 3).dropWhile pyIsSpace with
     | [] => false
     | c :: _ => pyIsDigit c)

/-- Search for `typ\s*\d+` at any position reachable by `.*?`
(which cannot cross a newline). -/
def searchTypNum : List Char → Bool
  | [] => false
  | c :: rest => typNumAt (c :: rest) || (c != '\n' && searchTypNum rest)

/-- One anchor position of `(weizen|mehl|weizenmehl|vollkorn).*?typ\s*\d+`. -/
def mehlTypAt (s : List Char) : Bool :=
  (startsWithL "weizen".data s && searchTypNum (s.drop 6)) ||
  (startsWithL "mehl".data s && searchTypNum (s.drop 4)) ||
  (startsWithL "weizenmehl".data s && searchTypNum (s.drop 10)) ||
  (startsWithL "vollkorn".data s && searchTypNum (s.drop 8))

/-- `re.search(r'(weizen|mehl|weizenmehl|vollkorn).*?typ\s*\d+', s)` as a
boolean: the alternation anchors at any position. -/
def mehlTypPattern : List Char → Bool
  | [] => false
  | c :: rest => mehlTypAt (c :: rest) || mehlTypPattern rest

/-- `\d+[,.]\d+\s*€` matching at the head of `s`; the character classes at
each boundary are disjoint, so greedy maximal munch is exact. -/
def priceAt (s : List Char) : Bool :=
  !(s.takeWhile pyIsDigit).isEmpty &&
    (match s.dropWhile pyIsDigit with
     | c :: r2 =>
       (c == ',' || c == '.') &&
       !(r2.takeWhile pyIsDigit).isEmpty &&
       (match (r2.dropWhile pyIsDigit).dropWhile pyIsSpace with
        | e :: _ => e == '€'
        | [] => false)
     | [] => false)

/-- `re.search(r'\d+[,.]\d+\s*€', s)` as a boolean. -/
def pricePattern : List Char → Bool
  | [] => false
  | c :: rest => priceAt (c :: rest) || pricePattern rest

/-- `\d[-\s]?\d` matching at the head of `s`. -/
def isbnDigitsAt (s : List Char) : Bool :=
  match s with
  | c :: rest =>
    pyIsDigit c &&
      (match rest with
       | d :: rest2 =>
         pyIsDigit d ||
         ((d == '-' || pyIsSpace d) &&
           (match rest2 with
            | e :: _ => pyIsDigit e
            | [] => false))
       | [] => false)
  | [] => false

/-- Search for `\d[-\s]?\d` at any position reachable by `.*?`
(which cannot cross a newline). -/
def isbnSearch : List Char → Bool
  | [] => false
  | c :: rest => isbnDigitsAt (c :: rest) || (c != '\n' && isbnSearch rest)

/-- `re.search(r'ISBN.*?\d[-\s]?\d', s)` as a boolean (case-sensitive). -/
def isbnPattern : List Char → Bool
  | [] => false
  | c :: rest =>
    (startsWithL "ISBN".data (c :: rest) && isbnSearch ((c :: rest).drop 4)) ||
    isbnPattern rest

/-- The fixed list of common German words of `is_meaningful_text`,
in source order and capitalization. -/
def common_german_words : List (List Char) :=
  ["und".data, "der".data, "die".data, "das".data, "mit".data, "für".data, "von".data,
   "bei".data, "aus".data, "Buch".data, "Text".data, "Wort".data, "Preis".data,
   "Euro".data, "Kauf".data, "Geld".data, "Zeit".data, "Jahr".data, "Leben".data,
   "Mensch".data, "Mann".data, "Frau".data, "Kind".data, "Stadt".data, "Land".data,
   "Haus".data, "Auto".data, "Wasser".data, "Essen".data, "Milch".data, "Brot".data,
   "Zucker".data, "Salz".data, "Butter".data, "Käse".data, "Fleisch".data,
   "Obst".data, "Gemüse".data, "Wein".data, "Bier".data, "Hotel".data,
   "Restaurant".data, "Schule".data, "Arbeit".data, "Schrift".data, "Brief".data,
   "Post".data, "Zeitung".data, "Markt".data, "Straße".data, "Zimmer".data,
   "Tisch".data, "Stuhl".data, "Bett".data, "Küche".data, "Bad".data,
   "Wohnung".data, "Fenster".data, "Tür".data, "Dach".data, "Wand".data,
   "Mehl".data, "Weizen".data, "Weißmehl".data, "Weizenmehl".data, "Vollkorn".data,
   "Vollkornmehl".data, "Teig".data, "Teigwaren".data, "Pasta".data,
   "Spaghetti".data, "Nudel".data, "Nudeln".data, "Reis".data, "Kartoffel".data,
   "Kartoffeln".data, "Getränk".data, "Getränke".data, "Cola".data,
   "Limonade".data, "Saft".data, "Apfel".data, "Banane".data, "Orange".data,
   "Birne".data, "Erdbeere".data, "Himbeere".data, "Brombeere".data,
   "Heidelbeere".data]

/-- `consecutive_words`: number of adjacent pairs of purely alphabetic words. -/
def countConsecutive : List (List Char) → ℕ
  | w1 :: w2 :: rest =>
    (if isAlphaWord w1 && isAlphaWord w2 then 1 else 0) + countConsecutive (w2 :: rest)
  | _ => 0

/-- The pattern section at the end of `is_meaningful_text`: flour/type code,
website URL, price, ISBN. -/
def patternChecks (text cleaned_text : List Char) : Bool :=
  mehlTypPattern (lowerList cleaned_text) ||
  (containsSub "www.".data (lowerList text) && containsSub ".de".data (lowerList text)) ||
  pricePattern text ||
  isbnPattern text

/-- `ImageRecognizer.is_meaningful_text` of `image_recognition.py`
(the strict profile). -/
def is_meaningful_text (text : List Char) : Bool :=
  -- if not text or len(text.strip()) < 6: return False
  if text.isEmpty || (pyStrip text).length < 6 then false
  -- if special_chars_count / (len(text) + 0.001) > 0.3: return False
  else if ratioGt (specialCount text) text.length (mkRat 3 10) then false
  else
    -- cleaned_text = re.sub(r'[^\w\säöüÄÖÜß]', '', text).strip()
    let cleaned_text := pyStrip (text.filter
      (fun c => isWordChar c || pyIsSpace c || germanChars.contains c))
    if cleaned_text.length < 6 then false
    else
      let words := splitWs cleaned_text
      -- words of length >= 5 that are purely alphabetic
      let meaningful_words := words.filter (fun w => decide (5 ≤ w.length) && isAlphaWord w)
      if meaningful_words.length < 1 then false
      else
        -- known_words = [w.lower() for w in words if w.lower() in common_german_words]
        let known_words :=
          (words.filter (fun w => common_german_words.contains (lowerList w))).map lowerList
        if 2 ≤ known_words.length ∨ (1 ≤ known_words.length ∧ 2 ≤ meaningful_words.length) then
          -- if letters / (len(cleaned_text) + 0.001) > 0.7: ...
          if ratioGt (letterCount cleaned_text) cleaned_text.length (mkRat 7 10) then
            if 0 < countConsecutive words then true
            else if !((known_words.filter (fun w => decide (6 ≤ w.length))).isEmpty) then true
            else false
          else patternChecks text cleaned_text
        else patternChecks text cleaned_text

/-- The stop-word/unit list of `get_best_text_for_title`. -/
def filter_words : List (List Char) :=
  ["typ".data, "type".data, "ml".data, "l".data, "g".data, "kg".data, "m".data,
   "cm".data, "mm".data, "the".data, "und".data]

/-- The known product terms of `get_best_text_for_title`, in source order. -/
def common_product_words : List (List Char) :=
  ["Mehl".data, "Weizenmehl".data, "Zucker".data, "Salz".data, "Milch".data,
   "Brot".data, "Wasser".data, "Butter".data, "Käse".data, "Buch".data,
   "ISBN".data, "Roman".data, "Kaffee".data, "Tee".data, "Wein".data]

/-- One alternative of `(Typ|TYP|Type)\s*\d+` at the head of `s`, returning
the matched text (keyword, consumed whitespace, consumed digits). -/
def typKwAt (kw : List Char) (s : List Char) : Option (List Char) :=
  if startsWithL kw s then
    let r := s.drop kw.length
    let sp := r.takeWhile pyIsSpace
    let ds := (r.dropWhile pyIsSpace).takeWhile pyIsDigit
    if ds.isEmpty then none else some (kw ++ sp ++ ds)
  else none

/-- `(Typ|TYP|Type)\s*\d+` at the head of `s`, alternatives in regex order. -/
def typNumMatchAt (s : List Char) : Option (List Char) :=
  match typKwAt "Typ".data s with
  | some m => some m
  | none =>
    match typKwAt "TYP".data s with
    | some m => some m
    | none => typKwAt "Type".data s

/-- `re.search(r'(Typ|TYP|Type)\s*\d+', s)`: leftmost match's text. -/
def typNumSearch : List Char → Option (List Char)
  | [] => none
  | c :: rest =>
    match typNumMatchAt (c :: rest) with
    | some m => some m
    | none => typNumSearch rest

/-- `ImageRecognizer.get_best_text_for_title` of `image_recognition.py`. -/
def get_best_text_for_title (text : List Char) : List Char :=
  if text.isEmpty then "Text".data
  else
    -- re.sub(r'[^\w\säöüÄÖÜß]', ' ', text), then re.sub(r'\s+', ' ', ·).strip()
    let cleaned_text := pyStrip (collapseWs (text.map (fun c =>
      if isWordChar c || pyIsSpace c || germanChars.contains c then c else ' ')))
    if cleaned_text.isEmpty || cleaned_text.length < 3 then "Text".data
    else
      let words := splitWs cleaned_text
      -- keep words of length >= 3, not in filter_words, mostly letters
      let meaningful_words := words.filter (fun w =>
        !(decide (w.length < 3) || filter_words.contains (lowerList w)) &&
        ratioGt (letterCount w) w.length (mkRat 1 2))
      if meaningful_words.isEmpty then
        match typNumSearch cleaned_text with
        | some m => pyCapitalize m
        | none => "Text".data
      else
        match common_product_words.find?
            (fun pw => containsSub (lowerList pw) (lowerList cleaned_text)) with
        | some pw => pw
        | none =>
          match meaningful_words with
          | [] => "Objekt".data
          | w :: ws =>
            let longest_word := maxByLen w ws
            if 5 ≤ longest_word.length then pyCapitalize longest_word
            else if ws.isEmpty then pyCapitalize w
            else
              let title := joinSep ' ' ((w :: ws).take 2)
              pyCapitalize (if 20 < title.length then title.take 17 ++ "...".data else title)

/-- The product registry local to `identify_product_from_text` in
`image_recognition.py`, in dict order (boosts 1.2–1.5). -/
def PRODUCT_TEXT_MAPPING : List (List Char × Product) :=
  [("Mehl".data, ⟨"Mehl".data, "Weizenmehl".data, mkRat 12 10⟩),
   ("Weizenmehl".data, ⟨"Weizenmehl".data, "Weizenmehl".data, mkRat 15 10⟩),
   ("Zucker".data, ⟨"Zucker".data, "Zucker".data, mkRat 12 10⟩),
   ("Raffinadezucker".data, ⟨"Raffinadezucker".data, "Feiner Zucker".data, mkRat 15 10⟩),
   ("Milch".data, ⟨"Milch".data, "Frische Milch".data, mkRat 12 10⟩),
   ("Vollmilch".data, ⟨"Vollmilch".data, "Vollmilch".data, mkRat 15 10⟩),
   ("Brot".data, ⟨"Brot".data, "Brot".data, mkRat 12 10⟩),
   ("Vollkornbrot".data, ⟨"Vollkornbrot".data, "Vollkornbrot".data, mkRat 15 10⟩),
   ("Wasser".data, ⟨"Wasser".data, "Mineralwasser".data, mkRat 12 10⟩),
   ("Mineralwasser".data, ⟨"Mineralwasser".data, "Mineralwasser".data, mkRat 15 10⟩),
   ("Butter".data, ⟨"Butter".data, "Butter".data, mkRat 15 10⟩),
   ("Käse".data, ⟨"Käse".data, "Käse".data, mkRat 12 10⟩),
   ("Gouda".data, ⟨"Gouda".data, "Gouda Käse".data, mkRat 15 10⟩),
   ("Buch".data, ⟨"Buch".data, "Buch".data, mkRat 12 10⟩),
   ("ISBN".data, ⟨"Buch".data, "Buch mit ISBN".data, mkRat 15 10⟩),
   ("Roman".data, ⟨"Roman".data, "Romanwerk".data, mkRat 13 10⟩),
   ("Kaffee".data, ⟨"Kaffee".data, "Kaffee".data, mkRat 13 10⟩),
   ("Tee".data, ⟨"Tee".data, "Tee".data, mkRat 13 10⟩),
   ("Zeitung".data, ⟨"Zeitung".data, "Tageszeitung".data, mkRat 13 10⟩),
   ("Magazin".data, ⟨"Magazin".data, "Zeitschrift".data, mkRat 13 10⟩),
   ("Wein".data, ⟨"Wein".data, "Weinflasche".data, mkRat 13 10⟩),
   ("Rotwein".data, ⟨"Rotwein".data, "Rotwein".data, mkRat 15 10⟩),
   ("Weißwein".data, ⟨"Weißwein".data, "Weißwein".data, mkRat 15 10⟩)]

/-- `ImageRecognizer.identify_product_from_text` of `image_recognition.py`:
best registry match, else a synthesized product with boost 0.85 when the
text is meaningful. -/
def identify_product_from_text (text : List Char) : Option Product :=
  if text.isEmpty || (pyStrip text).isEmpty then none
  else
    match scanRegistry PRODUCT_TEXT_MAPPING (lowerList text) with
    | some p => some p
    | none =>
      if is_meaningful_text text then
        some { name := get_best_text_for_title text
               description := get_best_text_for_title text
               confidence_boost := mkRat 85 100 }
      else none

/-- `ImageRecognizer.extract_text` of `image_recognition.py`, as a function
of the outcomes of its three pytesseract calls.  Passes 2 and 3 sit inside
their own try/except; pass 1 does not, so its failure reaches the outer
handler, which returns `""` without attempting the other passes. -/
def extract_text (p1 p2 p3 : Option (List Char)) : List Char :=
  match p1 with
  | none => []
  | some t1 =>
    cleanLines (joinSep '\n'
      ((if (pyStrip t1).isEmpty then [] else [t1]) ++ ocrPassResult p2 ++ ocrPassResult p3))

/-- The text-based result dict of `predict`
(`confidence = 0.95 * confidence_boost`). -/
def textEntry (p : Product) (ext : List Char) : PredEntry :=
  { class_id := -1
    class_name := p.name
    class_description := p.description
    confidence := qmul (mkRat 19 20) p.confidence_boost
    extracted_text := some ext
    identified_by_text := true }

/-- The text-channel body of `predict` once the high-confidence gate has
been passed: meaningfulness gate, product identification, specificity gate
(`top_conf > 0.4` and `boost < 1.2` discards). -/
def textProduct (tc : ℚ) (extracted : List Char) : Option Product :=
  if is_meaningful_text extracted then
    match identify_product_from_text extracted with
    | some p => if tc > mkRat 2 5 ∧ p.confidence_boost < mkRat 6 5 then none else some p
    | none => none
  else none

/-- The text-based product that survives all gates of `predict`:
`none` outright when `top_conf > 0.75`. -/
def gatedProduct (tc : ℚ) (ocr : List Char) : Option Product :=
  if tc > mkRat 3 4 then none else textProduct tc ocr

/-- The `results` list of `predict` before the final `[:5]`. -/
def textResults (tbp : Option Product) (ext : List Char) : List PredEntry :=
  match tbp with
  | some p => [textEntry p ext]
  | none => []

def assembleFull (ext : List Char) (tbp : Option Product) (top0 : ℕ × ℚ)
    (rest : List (ℕ × ℚ)) (cats : ℕ → List Char) : List PredEntry :=
  textResults tbp ext ++ visEntries ext tbp cats 0 (top0 :: rest)

/-- `ImageRecognizer.predict` of `image_recognition.py`, as a function of
the top-5 classifier output (head and tail, confidence `ℚ`), the OCR text
the text channel would extract, and the category table. -/
def predict (top0 : ℕ × ℚ) (rest : List (ℕ × ℚ)) (ocr : List Char)
    (cats : ℕ → List Char) : List PredEntry :=
  (assembleFull (if top0.2 > mkRat 3 4 then [] else ocr) (gatedProduct top0.2 ocr)
    top0 rest cats).take 5

end Rec

namespace RecNew

/-! Embedding of `src/image_recognition_new.py`. -/

/-- The module-level product registry of `image_recognition_new.py`,
in dict order (boosts 0.5–0.8). -/
def PRODUCT_TEXT_MAPPING : List (List Char × Product) :=
  [("Weizenmehl".data, ⟨"Weizenmehl".data, "Weizenmehl".data, mkRat 8 10⟩),
   ("Mehl".data, ⟨"Mehl".data, "Mehl".data, mkRat 6 10⟩),
   ("TYP 405".data, ⟨"Weizenmehl_405".data, "Weizenmehl Type 405".data, mkRat 7 10⟩),
   ("Milch".data, ⟨"Milch".data, "Milch".data, mkRat 7 10⟩),
   ("Vollmilch".data, ⟨"Vollmilch".data, "Vollmilch".data, mkRat 8 10⟩),
   ("Joghurt".data, ⟨"Joghurt".data, "Joghurt".data, mkRat 7 10⟩),
   ("Cola".data, ⟨"Cola".data, "Cola".data, mkRat 7 10⟩),
   ("Fanta".data, ⟨"Fanta".data, "Fanta".data, mkRat 7 10⟩),
   ("Wasser".data, ⟨"Wasser".data, "Wasser".data, mkRat 6 10⟩),
   ("Schokolade".data, ⟨"Schokolade".data, "Schokolade".data, mkRat 7 10⟩),
   ("Chips".data, ⟨"Chips".data, "Chips".data, mkRat 7 10⟩),
   ("Tomaten".data, ⟨"Tomaten".data, "Tomaten".data, mkRat 6 10⟩),
   ("Mais".data, ⟨"Mais".data, "Mais".data, mkRat 6 10⟩),
   ("Bio".data, ⟨"Bio_Produkt".data, "Bio-Produkt".data, mkRat 5 10⟩),
   ("Zucker".data, ⟨"Zucker".data, "Zucker".data, mkRat 7 10⟩),
   ("Salz".data, ⟨"Salz".data, "Salz".data, mkRat 7 10⟩)]

/-- `ImageRecognizer.is_meaningful_text` of `image_recognition_new.py`
(the legacy profile). -/
def is_meaningful_text (text : List Char) : Bool :=
  -- if not text or len(text.strip()) < 3: return False
  if text.isEmpty || (pyStrip text).length < 3 then false
  else
    -- cleaned_text = re.sub(r'[^\w\s]', '', text).strip()
    let cleaned_text := pyStrip (text.filter (fun c => isWordChar c || pyIsSpace c))
    if cleaned_text.length < 3 then false
    else
      let words := splitWs cleaned_text
      let meaningful_words := words.filter (fun w => decide (3 ≤ w.length))
      if 1 ≤ meaningful_words.length then
        -- letters / (len(cleaned_text) + 0.001) > 0.5
        ratioGt (letterCount cleaned_text) cleaned_text.length (mkRat 1 2)
      else false

/-- `ImageRecognizer.get_best_text_for_title` of `image_recognition_new.py`. -/
def get_best_text_for_title (text : List Char) : List Char :=
  if text.isEmpty then "Text".data
  else
    let cleaned_text := pyStrip (collapseWs (text.map (fun c =>
      if isWordChar c || pyIsSpace c || germanChars.contains c then c else ' ')))
    if cleaned_text.isEmpty || cleaned_text.length < 3 then "Text".data
    else
      match splitWs cleaned_text with
      | [] =>
        -- fallback when no word structure is recognizable
        if 20 < cleaned_text.length then pyCapitalize (cleaned_text.take 17) ++ "...".data
        else pyCapitalize cleaned_text
      | w :: ws =>
        let longest_word := maxByLen w ws
        -- len(longest) >= 5 and len(longest) >= len(cleaned_text) * 0.3
        if 5 ≤ longest_word.length && shareGe longest_word.length cleaned_text.length then
          pyCapitalize longest_word
        else if ws.isEmpty then pyCapitalize w
        else if ws.length = 1 then pyCapitalize (joinSep ' ' (w :: ws))
        else
          let title := joinSep ' ' ((w :: ws).take 3)
          pyCapitalize (if 20 < title.length then title.take 17 ++ "...".data else title)

/-- `ImageRecognizer.identify_product_from_text` of
`image_recognition_new.py`: best registry match, else a synthesized product
with boost 0.9 when the text is meaningful. -/
def identify_product_from_text (text : List Char) : Option Product :=
  if text.isEmpty || (pyStrip text).isEmpty then none
  else
    match scanRegistry PRODUCT_TEXT_MAPPING (lowerList text) with
    | some p => some p
    | none =>
      if is_meaningful_text text then
        some { name := get_best_text_for_title text
               description := get_best_text_for_title text
               confidence_boost := mkRat 9 10 }
      else none

/-- `ImageRecognizer.extract_text` of `image_recognition_new.py`: one
pytesseract pass inside a try/except returning `""` on failure. -/
def extract_text (p : Option (List Char)) : List Char :=
  match p with
  | none => []
  | some t => cleanLines t

/-- The text-based result dict of this `predict`: confidence is the
constant 0.95. -/
def textEntry (p : Product) (ext : List Char) : PredEntry :=
  { class_id := -1
    class_name := p.name
    class_description := p.description
    confidence := mkRat 19 20
    extracted_text := some ext
    identified_by_text := true }

def textResults (tbp : Option Product) (ext : List Char) : List PredEntry :=
  match tbp with
  | some p => [textEntry p ext]
  | none => []

def assembleFull (ext : List Char) (tbp : Option Product) (top0 : ℕ × ℚ)
    (rest : List (ℕ × ℚ)) (cats : ℕ → List Char) : List PredEntry :=
  textResults tbp ext ++ visEntries ext tbp cats 0 (top0 :: rest)

/-- `ImageRecognizer.predict` of `image_recognition_new.py`: the text
channel always runs; no confidence gates. -/
def predict (top0 : ℕ × ℚ) (rest : List (ℕ × ℚ)) (ocr : List Char)
    (cats : ℕ → List Char) : List PredEntry :=
  (assembleFull ocr (identify_product_from_text ocr) top0 rest cats).take 5

end RecNew

/-! ### Infrastructure lemmas -/

theorem scanFold_mem (tl : List Char) :
    ∀ (reg : List (List Char × Product)) (acc : ℚ × Option Product) (p : Product),
      (reg.foldl (scanStep tl) acc).2 = some p →
      acc.2 = some p ∨ ∃ kv ∈ reg, p = kv.2 := by
  intro reg
  induction reg with
  | nil => intro acc p h; exact Or.inl h
  | cons kv reg ih =>
    intro acc p h
    rw [List.foldl_cons] at h
    rcases ih _ p h with h2 | ⟨kv2, hm, he⟩
    · unfold scanStep at h2
      split at h2
      · split at h2
        · exact Or.inr ⟨kv, List.mem_cons_self kv reg, (Option.some.inj h2).symm⟩
        · exact Or.inl h2
      · exact Or.inl h2
    · exact Or.inr ⟨kv2, List.mem_cons_of_mem _ hm, he⟩

/-- A successful registry scan returns the payload of some registry entry. -/
theorem scanRegistry_mem (reg : List (List Char × Product)) (tl : List Char) (p : Product)
    (h : scanRegistry reg tl = some p) : ∃ kv ∈ reg, p = kv.2 := by
  rcases scanFold_mem tl reg _ p h with h2 | h2
  · exact absurd h2 (by simp)
  · exact h2

/-- Every entry the visual loop produces is a visual entry: not text-based,
with confidence taken from the probability list. -/
theorem visEntries_mem (ext : List Char) (tbp : Option Product) (cats : ℕ → List Char) :
    ∀ (l : List (ℕ × ℚ)) (i : ℕ) (e : PredEntry), e ∈ visEntries ext tbp cats i l →
      e.identified_by_text = false ∧ ∃ pr ∈ l, e.confidence = pr.2 := by
  intro l
  induction l with
  | nil => intro i e h; simp [visEntries] at h
  | cons pr rest ih =>
    intro i e h
    obtain ⟨idx, prob⟩ := pr
    rw [visEntries] at h
    rcases List.mem_cons.1 h with h1 | h1
    · subst h1
      exact ⟨rfl, ⟨(idx, prob), List.mem_cons_self _ _, rfl⟩⟩
    · obtain ⟨hf, pr2, hm, hc⟩ := ih (i + 1) e h1
      exact ⟨hf, pr2, List.mem_cons_of_mem _ hm, hc⟩

/-- With empty extracted text, no visual entry carries an
`extracted_text` field. -/
theorem visEntries_ext_nil (tbp : Option Product) (cats : ℕ → List Char) :
    ∀ (l : List (ℕ × ℚ)) (i : ℕ) (e : PredEntry), e ∈ visEntries [] tbp cats i l →
      e.extracted_text = none := by
  intro l
  induction l with
  | nil => intro i e h; simp [visEntries] at h
  | cons pr rest ih =>
    intro i e h
    obtain ⟨idx, prob⟩ := pr
    rw [visEntries] at h
    rcases List.mem_cons.1 h with h1 | h1
    · subst h1
      simp
    · exact ih (i + 1) e h1

/-- A text-based entry of the assembled `Rec` result list can only be the
text entry of the surviving product. -/
theorem Rec.strict_mem_assemble_text (ext : List Char) (tbp : Option Product) (top0 : ℕ × ℚ)
    (rest : List (ℕ × ℚ)) (cats : ℕ → List Char) (e : PredEntry)
    (h : e ∈ Rec.assembleFull ext tbp top0 rest cats)
    (ht : e.identified_by_text = true) :
    ∃ p, tbp = some p ∧ e = Rec.textEntry p ext := by
  rw [Rec.assembleFull] at h
  rcases List.mem_append.1 h with h1 | h1
  · cases tbp with
    | none => simp [Rec.textResults] at h1
    | some p =>
      refine ⟨p, rfl, ?_⟩
      simpa [Rec.textResults] using h1
  · have := (visEntries_mem ext tbp cats _ 0 e h1).1
    rw [ht] at this
    exact absurd this (by simp)

/-- A text-based entry of the assembled `RecNew` result list can only be the
text entry of the identified product. -/
theorem RecNew.legacy_mem_assemble_text (ext : List Char) (tbp : Option Product) (top0 : ℕ × ℚ)
    (rest : List (ℕ × ℚ)) (cats : ℕ → List Char) (e : PredEntry)
    (h : e ∈ RecNew.assembleFull ext tbp top0 rest cats)
    (ht : e.identified_by_text = true) :
    ∃ p, tbp = some p ∧ e = RecNew.textEntry p ext := by
  rw [RecNew.assembleFull] at h
  rcases List.mem_append.1 h with h1 | h1
  · cases tbp with
    | none => simp [RecNew.textResults] at h1
    | some p =>
      refine ⟨p, rfl, ?_⟩
      simpa [RecNew.textResults] using h1
  · have := (visEntries_mem ext tbp cats _ 0 e h1).1
    rw [ht] at this
    exact absurd this (by simp)

theorem dropWhile_head_false (p : Char → Bool) :
    ∀ (l : List Char) (c : Char) (t : List Char), l.dropWhile p = c :: t → p c = false := by
  intro l
  induction l with
  | nil => intro c t h; simp [List.dropWhile] at h
  | cons a l ih =>
    intro c t h
    rw [List.dropWhile_cons] at h
    by_cases hp : p a = true
    · rw [if_pos hp] at h
      exact ih c t h
    · rw [if_neg hp] at h
      obtain ⟨h1, -⟩ := List.cons.inj h
      subst h1
      exact Bool.eq_false_iff.mpr hp

/-- A nonempty stripped string starts with a non-whitespace character. -/
theorem pyStrip_head (l : List Char) (c : Char) (t : List Char)
    (h : pyStrip l = c :: t) : pyIsSpace c = false := by
  have hpre : pyStrip l <+: l.dropWhile pyIsSpace := by
    rw [← List.reverse_suffix, pyStrip, List.reverse_reverse]
    exact List.dropWhile_suffix _
  obtain ⟨s, hs⟩ := hpre
  rw [h] at hs
  exact dropWhile_head_false pyIsSpace l c (t ++ s) hs.symm

/-- A stripped string ends with a non-whitespace character. -/
theorem pyStrip_last (l : List Char) (c : Char)
    (h : (pyStrip l).getLast? = some c) : pyIsSpace c = false := by
  rw [pyStrip, List.getLast?_reverse] at h
  cases hd : (l.dropWhile pyIsSpace).reverse.dropWhile pyIsSpace with
  | nil => rw [hd] at h; simp at h
  | cons a t =>
    rw [hd] at h
    simp at h
    subst h
    exact dropWhile_head_false pyIsSpace _ _ _ hd

theorem pyStrip_mem (l : List Char) (c : Char) (h : c ∈ pyStrip l) : c ∈ l := by
  rw [pyStrip, List.mem_reverse] at h
  have h2 : c ∈ (l.dropWhile pyIsSpace).reverse :=
    List.IsSuffix.mem h (List.dropWhile_suffix _)
  rw [List.mem_reverse] at h2
  exact List.IsSuffix.mem h2 (List.dropWhile_suffix _)

theorem splitOnNl_ne_nil (s : List Char) : splitOnNl s ≠ [] := by
  cases s with
  | nil => simp [splitOnNl]
  | cons c rest =>
    rw [splitOnNl]
    cases h : splitOnNl rest with
    | nil => simp
    | cons l ls => by_cases hc : c = '\n' <;> simp [hc]

/-- No piece of `s.split('\n')` contains a newline. -/
theorem splitOnNl_no_nl : ∀ (s : List Char) (l : List Char), l ∈ splitOnNl s → '\n' ∉ l := by
  intro s
  induction s with
  | nil =>
    intro l h
    simp [splitOnNl] at h
    subst h
    simp
  | cons c rest ih =>
    intro l
    rw [splitOnNl]
    cases hs : splitOnNl rest with
    | nil => exact absurd hs (splitOnNl_ne_nil rest)
    | cons l0 ls =>
      intro h
      change l ∈ (if c = '\n' then [] :: l0 :: ls else (c :: l0) :: ls) at h
      have hl0 : '\n' ∉ l0 := ih l0 (by rw [hs]; exact List.mem_cons_self _ _)
      have hls : ∀ x ∈ ls, '\n' ∉ x := fun x hx =>
        ih x (by rw [hs]; exact List.mem_cons_of_mem _ hx)
      by_cases hc : c = '\n'
      · rw [if_pos hc] at h
        rcases List.mem_cons.1 h with h1 | h1
        · subst h1; simp
        · rcases List.mem_cons.1 h1 with h2 | h2
          · subst h2; exact hl0
          · exact hls l h2
      · rw [if_neg hc] at h
        rcases List.mem_cons.1 h with h1 | h1
        · subst h1
          intro hmem
          rcases List.mem_cons.1 hmem with h2 | h2
          · exact hc h2.symm
          · exact hl0 h2
        · exact hls l h1

theorem joinSep_ne_nil (l2 : List Char) (ls : List (List Char)) (h : l2 ≠ []) :
    joinSep ' ' (l2 :: ls) ≠ [] := by
  cases ls with
  | nil => exact h
  | cons l3 ls =>
    rw [joinSep]
    intro hcontra
    exact h (List.append_eq_nil.1 hcontra).1

/-- Joining nonempty newline-free pieces that start and end in
non-whitespace with single spaces yields a string that starts and ends in
non-whitespace and is newline-free. -/
theorem joinSep_space_props :
    ∀ (ps : List (List Char)),
      (∀ l ∈ ps, l ≠ [] ∧ (∀ c t, l = c :: t → pyIsSpace c = false) ∧
        (∀ c, l.getLast? = some c → pyIsSpace c = false) ∧ ('\n' ∉ l)) →
      (∀ c t, joinSep ' ' ps = c :: t → pyIsSpace c = false) ∧
      (∀ c, (joinSep ' ' ps).getLast? = some c → pyIsSpace c = false) ∧
      ('\n' ∉ joinSep ' ' ps) := by
  intro ps
  induction ps with
  | nil =>
    intro _
    refine ⟨?_, ?_, ?_⟩
    · intro c t h; exact absurd h (by simp [joinSep])
    · intro c h; rw [joinSep] at h; simp at h
    · simp [joinSep]
  | cons l ps ih =>
    intro H
    obtain ⟨hne, hhead, hlast, hnl⟩ := H l (List.mem_cons_self _ _)
    cases ps with
    | nil => exact ⟨fun c t h => hhead c t h, fun c h => hlast c h, hnl⟩
    | cons l2 ls =>
      have Htail : ∀ x ∈ l2 :: ls, x ≠ [] ∧ (∀ c t, x = c :: t → pyIsSpace c = false) ∧
          (∀ c, x.getLast? = some c → pyIsSpace c = false) ∧ ('\n' ∉ x) :=
        fun x hx => H x (List.mem_cons_of_mem _ hx)
      obtain ⟨ihh, ihl, ihnl⟩ := ih Htail
      have hl2 : l2 ≠ [] := (Htail l2 (List.mem_cons_self _ _)).1
      have hjne : joinSep ' ' (l2 :: ls) ≠ [] := joinSep_ne_nil l2 ls hl2
      rw [joinSep]
      refine ⟨?_, ?_, ?_⟩
      · intro c t h
        cases l with
        | nil => exact absurd rfl hne
        | cons a l1 =>
          rw [List.cons_append] at h
          obtain ⟨h1, -⟩ := List.cons.inj h
          subst h1
          exact hhead a l1 rfl
      · intro c h
        rw [List.getLast?_append] at h
        cases hj : joinSep ' ' (l2 :: ls) with
        | nil => exact absurd hj hjne
        | cons b j =>
          rw [hj, List.getLast?_cons_cons, ← hj] at h
          have : (joinSep ' ' (l2 :: ls)).getLast?.isSome := by
            rw [hj]; exact List.getLast?_isSome.2 (by simp)
          obtain ⟨d, hd⟩ := Option.isSome_iff_exists.1 this
          rw [hd] at h
          simp at h
          subst h
          exact ihl d hd
      · intro hmem
        rcases List.mem_append.1 hmem with h1 | h1
        · exact hnl h1
        · rcases List.mem_cons.1 h1 with h2 | h2
          · exact absurd h2.symm (by decide)
          · exact ihnl h2

/-- The OCR clean-up always yields a string with no leading or trailing
whitespace and no newline characters. -/
theorem cleanLines_props (s : List Char) :
    (∀ c t, cleanLines s = c :: t → pyIsSpace c = false) ∧
    (∀ c, (cleanLines s).getLast? = some c → pyIsSpace c = false) ∧
    ('\n' ∉ cleanLines s) := by
  rw [cleanLines]
  apply joinSep_space_props
  intro l hl
  rw [List.mem_filter] at hl
  obtain ⟨hmap, hne⟩ := hl
  rw [List.mem_map] at hmap
  obtain ⟨l0, hl0, rfl⟩ := hmap
  refine ⟨?_, ?_, ?_, ?_⟩
  · intro hnil
    rw [hnil] at hne
    simp at hne
  · exact pyStrip_head l0
  · exact pyStrip_last l0
  · intro hmem
    exact splitOnNl_no_nl s l0 hl0 (pyStrip_mem l0 _ hmem)

/-- If the special-character fraction over the plain length exceeds 3/10,
the source's guarded test (denominator `len + 0.001`) also exceeds it. -/
theorem noiseGt_of_fracGt (s L : ℕ) (h : (s : ℚ) / (L : ℚ) > 3 / 10) :
    ratioGt s L (mkRat 3 10) = true := by
  rw [ratioGt_iff]
  have hL : L ≠ 0 := by
    intro h0
    subst h0
    norm_num at h
  have hL0 : (0 : ℚ) < L := by exact_mod_cast Nat.pos_of_ne_zero hL
  have h1 : 3 * (L : ℚ) < (s : ℚ) * 10 := by
    rw [gt_iff_lt, div_lt_div_iff (by norm_num) hL0] at h
    exact h
  have h2 : (3 * L + 1 : ℕ) ≤ 10 * s := by
    have h15 : ((3 * L : ℕ) : ℚ) < ((10 * s : ℕ) : ℚ) := by
      push_cast
      linarith
    have h16 : (3 * L : ℕ) < 10 * s := by exact_mod_cast h15
    omega
  have h3 : ((3 * L + 1 : ℕ) : ℚ) ≤ ((10 * s : ℕ) : ℚ) := by exact_mod_cast h2
  have hmk : (mkRat 3 10 : ℚ) = 3 / 10 := by norm_num [Rat.mkRat_eq_div]
  rw [hmk, gt_iff_lt, div_lt_div_iff (by norm_num) (by positivity)]
  push_cast at h3 ⊢
  nlinarith [h3]

/-- A text the strict filter accepts is neither empty nor all-whitespace. -/
theorem Rec.strict_meaningful_not_blank (t : List Char) (h : Rec.is_meaningful_text t = true) :
    (t.isEmpty || (pyStrip t).isEmpty) = false := by
  rw [Rec.is_meaningful_text] at h
  split at h
  · exact absurd h (by simp)
  next hc =>
    rw [Bool.not_eq_true, Bool.or_eq_false_iff] at hc
    obtain ⟨h1, h2⟩ := hc
    rw [Bool.or_eq_false_iff]
    refine ⟨h1, ?_⟩
    by_contra hc2
    rw [Bool.not_eq_false, List.isEmpty_iff] at hc2
    rw [hc2] at h2
    simp at h2

/-- A text the legacy filter accepts is neither empty nor all-whitespace. -/
theorem RecNew.legacy_meaningful_not_blank (t : List Char) (h : RecNew.is_meaningful_text t = true) :
    (t.isEmpty || (pyStrip t).isEmpty) = false := by
  rw [RecNew.is_meaningful_text] at h
  split at h
  · exact absurd h (by simp)
  next hc =>
    rw [Bool.not_eq_true, Bool.or_eq_false_iff] at hc
    obtain ⟨h1, h2⟩ := hc
    rw [Bool.or_eq_false_iff]
    refine ⟨h1, ?_⟩
    by_contra hc2
    rw [Bool.not_eq_false, List.isEmpty_iff] at hc2
    rw [hc2] at h2
    simp at h2

/-- Claim C4 (counterexample): the strict profile returns `false` on
`"Weizenmehl Type 405"`, contradicting the claimed `true` for both
profiles: its dictionary test compares lowercased words against capitalized
entries, and its flour pattern `typ\s*\d+` fails on `Type` (the `e` sits
between `typ` and the digits). -/
theorem claim_C4_counterexample :
    Rec.is_meaningful_text ("Weizenmehl Type 405".data) = false := by decide

/-- Claim C4 (amended): `isMeaningful("ab")` is false in both profiles;
`isMeaningful("Weizenmehl Type 405")` is true under the legacy filter of
`image_recognition_new.py` but false under the strict filter of
`image_recognition.py`. -/
theorem claim_C4_amended :
    Rec.is_meaningful_text ("ab".data) = false ∧
    RecNew.is_meaningful_text ("ab".data) = false ∧
    RecNew.is_meaningful_text ("Weizenmehl Type 405".data) = true ∧
    Rec.is_meaningful_text ("Weizenmehl Type 405".data) = false := by
  refine ⟨by decide, by decide, by decide, by decide⟩

/-- Claim C5 (counterexample): the legacy filter of
`image_recognition_new.py` has no noise-ratio check at all: it accepts
`"abc!!!!!!!!"`, whose non-alphanumeric non-whitespace fraction 8/11
exceeds 30%. -/
theorem claim_C5_counterexample :
    RecNew.is_meaningful_text ("abc!!!!!!!!".data) = true ∧
    (specialCount ("abc!!!!!!!!".data) : ℚ) / ((("abc!!!!!!!!".data) : List Char).length : ℚ)
      > 3 / 10 := by
  refine ⟨by decide, ?_⟩
  have h1 : specialCount ("abc!!!!!!!!".data) = 8 := by decide
  have h2 : (("abc!!!!!!!!".data) : List Char).length = 11 := by decide
  rw [h1, h2]
  norm_num

/-- Claim C5 (amended): the strict filter of `image_recognition.py` rejects
every text whose fraction of characters that are neither alphanumeric nor
whitespace exceeds 30%; the legacy filter of `image_recognition_new.py`
performs no such check and accepts such texts (witnessed by
`"abc!!!!!!!!"`). -/
theorem claim_C5_amended :
    (∀ text : List Char,
       (specialCount text : ℚ) / (text.length : ℚ) > 3 / 10 →
       Rec.is_meaningful_text text = false) ∧
    (RecNew.is_meaningful_text ("abc!!!!!!!!".data) = true ∧
     (specialCount ("abc!!!!!!!!".data) : ℚ) / ((("abc!!!!!!!!".data) : List Char).length : ℚ)
       > 3 / 10) := by
  constructor
  · intro text h
    rw [Rec.is_meaningful_text]
    split
    · rfl
    · rw [noiseGt_of_fracGt _ _ h]
      rfl
  · refine ⟨by decide, ?_⟩
    have h1 : specialCount ("abc!!!!!!!!".data) = 8 := by decide
    have h2 : (("abc!!!!!!!!".data) : List Char).length = 11 := by decide
    rw [h1, h2]
    norm_num

/-- Claim C5 (witness): the strict rejection applied at `"??????"`,
all six characters special. -/
theorem claim_C5_witness :
    ((specialCount ("??????".data) : ℚ) / ((("??????".data) : List Char).length : ℚ) > 3 / 10) ∧
    Rec.is_meaningful_text ("??????".data) = false := by
  have h : (specialCount ("??????".data) : ℚ) / ((("??????".data) : List Char).length : ℚ)
      > 3 / 10 := by
    have h1 : specialCount ("??????".data) = 6 := by decide
    have h2 : (("??????".data) : List Char).length = 6 := by decide
    rw [h1, h2]
    norm_num
  exact ⟨h, claim_C5_amended.1 _ h⟩

/-- Claim C3 (counterexample): in `image_recognition_new.py`, the text
`"Apfelsaft"` matches no registry keyword, is meaningful, and synthesizes a
product with boost 0.9 — which is not below the minimum registry boost but
strictly above every registry boost (the maximum is 0.8). -/
theorem claim_C3_counterexample :
    scanRegistry RecNew.PRODUCT_TEXT_MAPPING (lowerList ("Apfelsaft".data)) = none ∧
    RecNew.is_meaningful_text ("Apfelsaft".data) = true ∧
    (RecNew.identify_product_from_text ("Apfelsaft".data)).map Product.confidence_boost =
      some (mkRat 9 10) ∧
    (RecNew.PRODUCT_TEXT_MAPPING.map (fun kv => kv.2.confidence_boost)).all
      (fun b => decide (b < mkRat 9 10)) = true ∧
    (mkRat 9 10 : ℚ) = 0.9 := by
  refine ⟨by decide, by decide, by decide, by decide, ?_⟩
  norm_num [Rat.mkRat_eq_div]

/-- Claim C3 (amended): for every no-registry-match meaningful text,
`image_recognition.py` synthesizes boost 0.85, strictly below every boost
of its local registry (minimum 1.2); `image_recognition_new.py` synthesizes
boost 0.9, which is strictly **above** every boost of its module-level
registry (maximum 0.8), so there a synthesized product outranks registry
specificity rather than losing to it. -/
theorem claim_C3_amended :
    (∀ t : List Char,
       scanRegistry Rec.PRODUCT_TEXT_MAPPING (lowerList t) = none →
       Rec.is_meaningful_text t = true →
       (Rec.identify_product_from_text t).map Product.confidence_boost = some 0.85 ∧
       ∀ kv ∈ Rec.PRODUCT_TEXT_MAPPING, (0.85 : ℚ) < kv.2.confidence_boost) ∧
    (∀ t : List Char,
       scanRegistry RecNew.PRODUCT_TEXT_MAPPING (lowerList t) = none →
       RecNew.is_meaningful_text t = true →
       (RecNew.identify_product_from_text t).map Product.confidence_boost = some 0.9 ∧
       ∀ kv ∈ RecNew.PRODUCT_TEXT_MAPPING, kv.2.confidence_boost < 0.9) := by
  have h85 : (0.85 : ℚ) = mkRat 85 100 := by norm_num [Rat.mkRat_eq_div]
  have h90 : (0.9 : ℚ) = mkRat 9 10 := by norm_num [Rat.mkRat_eq_div]
  constructor
  · intro t hscan hmean
    constructor
    · rw [Rec.identify_product_from_text, Rec.strict_meaningful_not_blank t hmean]
      simp only [Bool.false_eq_true, if_false, hscan, hmean, if_true, Option.map_some']
      rw [h85]
    · simp only [h85]
      decide
  · intro t hscan hmean
    constructor
    · rw [RecNew.identify_product_from_text, RecNew.legacy_meaningful_not_blank t hmean]
      simp only [Bool.false_eq_true, if_false, hscan, hmean, if_true, Option.map_some']
      rw [h90]
    · simp only [h90]
      decide

/-- Claim C3 (witness): the synthesized boosts observed at concrete
no-match meaningful texts. -/
theorem claim_C3_witness :
    (Rec.identify_product_from_text ("Apfelsaft und Gemüse".data)).map Product.confidence_boost =
      some 0.85 ∧
    (RecNew.identify_product_from_text ("Apfelsaft".data)).map Product.confidence_boost =
      some 0.9 :=
  ⟨(claim_C3_amended.1 _ (by decide) (by decide)).1,
   (claim_C3_amended.2 _ (by decide) (by decide)).1⟩

/-- Claim C7 (counterexample): a failure of the first (grayscale) OCR pass
in `image_recognition.py` is not recovered locally: it reaches the outer
handler and the remaining passes are never attempted, so a second pass that
would have read `"Milch"` is lost; had pass 1 merely contributed empty text
(the claimed behavior), the result would be `"Milch"`. -/
theorem claim_C7_counterexample :
    Rec.extract_text none (some ("Milch".data)) none = [] ∧
    Rec.extract_text (some []) (some ("Milch".data)) none = "Milch".data := by
  refine ⟨rfl, by decide⟩

/-- Claim C7 (amended): failures of the contrast pass (pass 2) or the
MHD pass (pass 3) are recovered locally — each behaves exactly as if it had
returned empty text, and the other passes still contribute; a failure of
the first grayscale pass instead aborts the whole extraction, which
returns `""`; `extract_text` itself never raises and returns `""` on
empty input in both implementations. -/
theorem claim_C7_amended :
    (∀ (t1 : List Char) (p3 : Option (List Char)),
       Rec.extract_text (some t1) none p3 = Rec.extract_text (some t1) (some []) p3) ∧
    (∀ (t1 : List Char) (p2 : Option (List Char)),
       Rec.extract_text (some t1) p2 none = Rec.extract_text (some t1) p2 (some [])) ∧
    (∀ (p2 p3 : Option (List Char)), Rec.extract_text none p2 p3 = []) ∧
    Rec.extract_text (some []) (some []) (some []) = [] ∧
    RecNew.extract_text none = [] ∧
    RecNew.extract_text (some []) = [] := by
  refine ⟨fun t1 p3 => rfl, fun t1 p2 => rfl, fun p2 p3 => rfl, rfl, rfl, rfl⟩

/-- Claim C8 (counterexample): the OCR clean-up strips each line but does
not collapse whitespace runs inside a line: the single pass output
`"a  b"` comes back verbatim, with its repeated internal spaces. -/
theorem claim_C8_counterexample :
    Rec.extract_text (some ['a', ' ', ' ', 'b']) none none = ['a', ' ', ' ', 'b'] ∧
    pyIsSpace ' ' = true := by
  refine ⟨by decide, by decide⟩

/-- Claim C8 (amended): for every set of raw OCR pass outputs, the string
returned by `extract_text` (both implementations) has no leading or
trailing whitespace and contains no newline character (and is a total
function, never null); runs of repeated whitespace *within* a line are
preserved, not collapsed. -/
theorem claim_C8_amended :
    (∀ (p1 p2 p3 : Option (List Char)),
       (∀ c t, Rec.extract_text p1 p2 p3 = c :: t → pyIsSpace c = false) ∧
       (∀ c, (Rec.extract_text p1 p2 p3).getLast? = some c → pyIsSpace c = false) ∧
       ('\n' ∉ Rec.extract_text p1 p2 p3)) ∧
    (∀ p : Option (List Char),
       (∀ c t, RecNew.extract_text p = c :: t → pyIsSpace c = false) ∧
       (∀ c, (RecNew.extract_text p).getLast? = some c → pyIsSpace c = false) ∧
       ('\n' ∉ RecNew.extract_text p)) := by
  constructor
  · intro p1 p2 p3
    cases p1 with
    | none =>
      refine ⟨?_, ?_, ?_⟩
      · intro c t h; exact absurd h (by simp [Rec.extract_text])
      · intro c h; rw [Rec.extract_text] at h; simp at h
      · simp [Rec.extract_text]
    | some t1 =>
      rw [Rec.extract_text]
      exact cleanLines_props _
  · intro p
    cases p with
    | none =>
      refine ⟨?_, ?_, ?_⟩
      · intro c t h; exact absurd h (by simp [RecNew.extract_text])
      · intro c h; rw [RecNew.extract_text] at h; simp at h
      · simp [RecNew.extract_text]
    | some t =>
      rw [RecNew.extract_text]
      exact cleanLines_props _

/-- Claim C8 (witness): the normalization facts observed at a concrete
multi-line, padded OCR output. -/
theorem claim_C8_witness :
    pyIsSpace 'M' = false ∧ pyIsSpace 't' = false := by
  have h := claim_C8_amended.1 (some (" Milch \n Brot ".data)) none none
  refine ⟨h.1 'M' ("ilch Brot".data) (by decide), h.2.1 't' (by decide)⟩

/-- Claim C1 (counterexample): `predict` in `image_recognition_new.py` has
no high-confidence gate: with top visual confidence 0.8 > 0.75 and OCR text
`"Milch"` it still emits a text-based entry at index 0, carrying the
extracted text. -/
theorem claim_C1_counterexample :
    (mkRat 4 5 : ℚ) > 0.75 ∧
    (RecNew.predict (0, mkRat 4 5)
        [(1, mkRat 1 100), (2, mkRat 1 100), (3, mkRat 1 100), (4, mkRat 1 100)]
        ("Milch".data) (fun _ => [])).map PredEntry.identified_by_text =
      [true, false, false, false, false] ∧
    (RecNew.predict (0, mkRat 4 5)
        [(1, mkRat 1 100), (2, mkRat 1 100), (3, mkRat 1 100), (4, mkRat 1 100)]
        ("Milch".data) (fun _ => [])).head?.map PredEntry.extracted_text =
      some (some ("Milch".data)) := by
  refine ⟨?_, by decide, by decide⟩
  norm_num [Rat.mkRat_eq_div]

/-- Claim C1 (amended): in `image_recognition.py`, whenever the top visual
confidence strictly exceeds 0.75, `predict` returns a list with no
text-based entry and no `extracted_text` field on any entry; the legacy
`predict` of `image_recognition_new.py` runs the text channel
unconditionally and does not have this property. -/
theorem claim_C1_amended :
    ∀ (top0 : ℕ × ℚ) (rest : List (ℕ × ℚ)) (ocr : List Char) (cats : ℕ → List Char),
      top0.2 > 0.75 →
      ∀ e ∈ Rec.predict top0 rest ocr cats,
        e.identified_by_text = false ∧ e.extracted_text = none := by
  intro top0 rest ocr cats h e he
  have h34 : (mkRat 3 4 : ℚ) = 0.75 := by norm_num [Rat.mkRat_eq_div]
  have hgt : top0.2 > mkRat 3 4 := by rw [h34]; exact h
  rw [Rec.predict, if_pos hgt, Rec.gatedProduct, if_pos hgt] at he
  have he2 := List.mem_of_mem_take he
  rw [Rec.assembleFull] at he2
  simp only [Rec.textResults, List.nil_append] at he2
  exact ⟨(visEntries_mem _ _ _ _ _ _ he2).1, visEntries_ext_nil _ _ _ _ _ he2⟩

/-- Claim C1 (witness): the gated `predict` applied at confidence 0.8 with
OCR text `"Milch"`; the top visual entry carries nothing text-related. -/
theorem claim_C1_witness :
    (⟨0, [], [], mkRat 4 5, none, false⟩ : PredEntry).identified_by_text = false ∧
    (⟨0, [], [], mkRat 4 5, none, false⟩ : PredEntry).extracted_text = none :=
  claim_C1_amended (0, mkRat 4 5)
    [(1, mkRat 1 100), (2, mkRat 1 100), (3, mkRat 1 100), (4, mkRat 1 100)]
    ("Milch".data) (fun _ => [])
    (by norm_num [Rat.mkRat_eq_div])
    ⟨0, [], [], mkRat 4 5, none, false⟩ (by decide)

/-- Claim C2 (counterexample): in `image_recognition_new.py` the identified
product `"Mehl"` (boost 0.6) survives and the emitted text entry's
confidence is the constant 0.95, not 0.95 × 0.6. -/
theorem claim_C2_counterexample :
    (RecNew.identify_product_from_text ("Mehl".data)).map Product.confidence_boost =
      some (mkRat 6 10) ∧
    (RecNew.predict (0, mkRat 1 2)
        [(1, mkRat 1 100), (2, mkRat 1 100), (3, mkRat 1 100), (4, mkRat 1 100)]
        ("Mehl".data) (fun _ => [])).head?.map PredEntry.confidence =
      some (mkRat 19 20) ∧
    (mkRat 19 20 : ℚ) ≠ 0.95 * mkRat 6 10 := by
  refine ⟨by decide, by decide, ?_⟩
  norm_num [Rat.mkRat_eq_div]

/-- Claim C2 (amended): when an identified product survives the gates,
the text entry's confidence is 0.95 × confidence_boost in
`image_recognition.py`, but the constant 0.95 (independent of the boost) in
`image_recognition_new.py`. -/
theorem claim_C2_amended :
    (∀ (top0 : ℕ × ℚ) (rest : List (ℕ × ℚ)) (ocr : List Char) (cats : ℕ → List Char)
       (p : Product),
       Rec.gatedProduct top0.2 ocr = some p →
       ∀ e ∈ Rec.predict top0 rest ocr cats, e.identified_by_text = true →
         e.confidence = 0.95 * p.confidence_boost) ∧
    (∀ (top0 : ℕ × ℚ) (rest : List (ℕ × ℚ)) (ocr : List Char) (cats : ℕ → List Char),
       ∀ e ∈ RecNew.predict top0 rest ocr cats, e.identified_by_text = true →
         e.confidence = 0.95) := by
  have h95 : (mkRat 19 20 : ℚ) = 0.95 := by norm_num [Rat.mkRat_eq_div]
  constructor
  · intro top0 rest ocr cats p hg e he hibt
    rw [Rec.predict] at he
    have he1 := List.mem_of_mem_take he
    obtain ⟨q, hq, rfl⟩ := Rec.strict_mem_assemble_text _ _ _ _ _ _ he1 hibt
    rw [hg] at hq
    obtain rfl : p = q := Option.some.inj hq
    show qmul (mkRat 19 20) p.confidence_boost = 0.95 * p.confidence_boost
    rw [qmul_eq, h95]
  · intro top0 rest ocr cats e he hibt
    rw [RecNew.predict] at he
    have he1 := List.mem_of_mem_take he
    obtain ⟨q, hq, rfl⟩ := RecNew.legacy_mem_assemble_text _ _ _ _ _ _ he1 hibt
    show (mkRat 19 20 : ℚ) = 0.95
    exact h95

/-- Claim C2 (witness): both confidence formulas observed at concrete runs
(`"Vollmilch und Butter"` with boost 1.5 for the strict file, `"Milch"` for
the legacy file). -/
theorem claim_C2_witness :
    (⟨-1, "Vollmilch".data, "Vollmilch".data, mkRat 57 40,
        some ("Vollmilch und Butter".data), true⟩ : PredEntry).confidence =
      0.95 * (⟨"Vollmilch".data, "Vollmilch".data, mkRat 15 10⟩ : Product).confidence_boost ∧
    (⟨-1, "Milch".data, "Milch".data, mkRat 19 20,
        some ("Milch".data), true⟩ : PredEntry).confidence = (0.95 : ℚ) :=
  ⟨claim_C2_amended.1 (0, mkRat 1 2) [(1, mkRat 1 100)] ("Vollmilch und Butter".data)
      (fun _ => []) ⟨"Vollmilch".data, "Vollmilch".data, mkRat 15 10⟩ (by decide)
      ⟨-1, "Vollmilch".data, "Vollmilch".data, mkRat 57 40,
        some ("Vollmilch und Butter".data), true⟩ (by decide) (by decide),
   claim_C2_amended.2 (0, mkRat 1 2) [(1, mkRat 1 100)] ("Milch".data) (fun _ => [])
      ⟨-1, "Milch".data, "Milch".data, mkRat 19 20, some ("Milch".data), true⟩
      (by decide) (by decide)⟩

/-- Claim C6: in both implementations, a text-based entry in the returned
list is at index 0 with `class_id = -1`; the final `[:5]` truncation never
drops a text entry present in the assembled list, and everything it can
drop is a visual entry. -/
theorem claim_C6_thm :
    (∀ (top0 : ℕ × ℚ) (rest : List (ℕ × ℚ)) (ocr : List Char) (cats : ℕ → List Char)
       (e : PredEntry), e ∈ Rec.predict top0 rest ocr cats → e.identified_by_text = true →
         (Rec.predict top0 rest ocr cats).head? = some e ∧ e.class_id = -1) ∧
    (∀ (ext : List Char) (tbp : Option Product) (top0 : ℕ × ℚ) (rest : List (ℕ × ℚ))
       (cats : ℕ → List Char) (e : PredEntry),
       e ∈ Rec.assembleFull ext tbp top0 rest cats → e.identified_by_text = true →
         e ∈ (Rec.assembleFull ext tbp top0 rest cats).take 5) ∧
    (∀ (ext : List Char) (tbp : Option Product) (top0 : ℕ × ℚ) (rest : List (ℕ × ℚ))
       (cats : ℕ → List Char) (e : PredEntry),
       e ∈ (Rec.assembleFull ext tbp top0 rest cats).drop 5 → e.identified_by_text = false) ∧
    (∀ (top0 : ℕ × ℚ) (rest : List (ℕ × ℚ)) (ocr : List Char) (cats : ℕ → List Char)
       (e : PredEntry), e ∈ RecNew.predict top0 rest ocr cats → e.identified_by_text = true →
         (RecNew.predict top0 rest ocr cats).head? = some e ∧ e.class_id = -1) ∧
    (∀ (ext : List Char) (tbp : Option Product) (top0 : ℕ × ℚ) (rest : List (ℕ × ℚ))
       (cats : ℕ → List Char) (e : PredEntry),
       e ∈ RecNew.assembleFull ext tbp top0 rest cats → e.identified_by_text = true →
         e ∈ (RecNew.assembleFull ext tbp top0 rest cats).take 5) ∧
    (∀ (ext : List Char) (tbp : Option Product) (top0 : ℕ × ℚ) (rest : List (ℕ × ℚ))
       (cats : ℕ → List Char) (e : PredEntry),
       e ∈ (RecNew.assembleFull ext tbp top0 rest cats).drop 5 →
         e.identified_by_text = false) := by
  refine ⟨?_, ?_, ?_, ?_, ?_, ?_⟩
  · intro top0 rest ocr cats e he hibt
    rw [Rec.predict] at he
    have he1 := List.mem_of_mem_take he
    obtain ⟨p, hp, rfl⟩ := Rec.strict_mem_assemble_text _ _ _ _ _ _ he1 hibt
    refine ⟨?_, rfl⟩
    rw [Rec.predict, Rec.assembleFull, hp]
    simp only [Rec.textResults, List.singleton_append]
    rfl
  · intro ext tbp top0 rest cats e he hibt
    obtain ⟨p, hp, rfl⟩ := Rec.strict_mem_assemble_text _ _ _ _ _ _ he hibt
    rw [Rec.assembleFull, hp]
    simp only [Rec.textResults, List.singleton_append]
    exact List.mem_cons_self _ _
  · intro ext tbp top0 rest cats e hd
    rw [Rec.assembleFull] at hd
    cases tbp with
    | none =>
      simp only [Rec.textResults, List.nil_append] at hd
      exact (visEntries_mem _ _ _ _ _ _ (List.mem_of_mem_drop hd)).1
    | some p =>
      simp only [Rec.textResults, List.singleton_append, List.drop_succ_cons] at hd
      exact (visEntries_mem _ _ _ _ _ _ (List.mem_of_mem_drop hd)).1
  · intro top0 rest ocr cats e he hibt
    rw [RecNew.predict] at he
    have he1 := List.mem_of_mem_take he
    obtain ⟨p, hp, rfl⟩ := RecNew.legacy_mem_assemble_text _ _ _ _ _ _ he1 hibt
    refine ⟨?_, rfl⟩
    rw [RecNew.predict, RecNew.assembleFull, hp]
    simp only [RecNew.textResults, List.singleton_append]
    rfl
  · intro ext tbp top0 rest cats e he hibt
    obtain ⟨p, hp, rfl⟩ := RecNew.legacy_mem_assemble_text _ _ _ _ _ _ he hibt
    rw [RecNew.assembleFull, hp]
    simp only [RecNew.textResults, List.singleton_append]
    exact List.mem_cons_self _ _
  · intro ext tbp top0 rest cats e hd
    rw [RecNew.assembleFull] at hd
    cases tbp with
    | none =>
      simp only [RecNew.textResults, List.nil_append] at hd
      exact (visEntries_mem _ _ _ _ _ _ (List.mem_of_mem_drop hd)).1
    | some p =>
      simp only [RecNew.textResults, List.singleton_append, List.drop_succ_cons] at hd
      exact (visEntries_mem _ _ _ _ _ _ (List.mem_of_mem_drop hd)).1

/-- Claim C6 (witness): the text entry observed at index 0 at a concrete
run of the strict `predict`. -/
theorem claim_C6_witness :
    (Rec.predict (0, mkRat 1 2) [(1, mkRat 1 100)] ("Vollmilch und Butter".data)
        (fun _ => [])).head? =
      some ⟨-1, "Vollmilch".data, "Vollmilch".data, mkRat 57 40,
        some ("Vollmilch und Butter".data), true⟩ ∧
    (⟨-1, "Vollmilch".data, "Vollmilch".data, mkRat 57 40,
        some ("Vollmilch und Butter".data), true⟩ : PredEntry).class_id = -1 :=
  claim_C6_thm.1 (0, mkRat 1 2) [(1, mkRat 1 100)] ("Vollmilch und Butter".data) (fun _ => [])
    ⟨-1, "Vollmilch".data, "Vollmilch".data, mkRat 57 40,
      some ("Vollmilch und Butter".data), true⟩ (by decide) (by decide)

/-- Inversion of the text-channel gates of the strict `predict`: a
surviving product passed the meaningfulness filter, came from
`identify_product_from_text`, the high-confidence gate was open, and under
a moderately confident visual read (`> 0.4`) its boost is at least 1.2. -/
theorem Rec.gatedProduct_inv (tc : ℚ) (ocr : List Char) (p : Product)
    (h : Rec.gatedProduct tc ocr = some p) :
    Rec.is_meaningful_text ocr = true ∧
    Rec.identify_product_from_text ocr = some p ∧
    ¬ tc > mkRat 3 4 ∧
    (tc > mkRat 2 5 → mkRat 6 5 ≤ p.confidence_boost) := by
  rw [Rec.gatedProduct] at h
  split at h
  · exact absurd h (by simp)
  next hgate =>
    rw [Rec.textProduct] at h
    split at h
    next hmean =>
      split at h
      next q hq =>
        split at h
        · exact absurd h (by simp)
        next hcond =>
          obtain rfl : q = p := Option.some.inj h
          refine ⟨hmean, hq, hgate, ?_⟩
          intro h25
          by_contra hlt
          exact hcond ⟨h25, lt_of_not_le hlt⟩
      next => exact absurd h (by simp)
    next => exact absurd h (by simp)

/-- Every product `identify_product_from_text` of `image_recognition.py`
returns is either the synthesized one (boost 0.85) or the payload of a
registry entry. -/
theorem Rec.identify_boost (t : List Char) (p : Product)
    (h : Rec.identify_product_from_text t = some p) :
    p.confidence_boost = mkRat 85 100 ∨ ∃ kv ∈ Rec.PRODUCT_TEXT_MAPPING, p = kv.2 := by
  rw [Rec.identify_product_from_text] at h
  split at h
  · exact absurd h (by simp)
  · split at h
    next q hscan =>
      right
      obtain ⟨kv, hkv, he⟩ := scanRegistry_mem _ _ _ hscan
      exact ⟨kv, hkv, (Option.some.inj h) ▸ he⟩
    next hscan =>
      split at h
      · left
        have hp := (Option.some.inj h).symm
        rw [hp]
      · exact absurd h (by simp)

/-- Claim C9: in `image_recognition.py`, an emitted text-based entry's
confidence strictly exceeds every visual entry's confidence in the same
list (given that the top-5 probabilities are at most the top one, itself at
most 1); every registry boost is at least 1.2; and a surviving synthesized
product (boost 0.85) forces a top visual confidence of at most 0.4. -/
theorem claim_C9_thm :
    ∀ (top0 : ℕ × ℚ) (rest : List (ℕ × ℚ)) (ocr : List Char) (cats : ℕ → List Char),
      top0.2 ≤ 1 → (∀ pr ∈ rest, pr.2 ≤ top0.2) →
      (∀ e ∈ Rec.predict top0 rest ocr cats, e.identified_by_text = true →
        ∀ v ∈ Rec.predict top0 rest ocr cats, v.identified_by_text = false →
          v.confidence < e.confidence) ∧
      (∀ kv ∈ Rec.PRODUCT_TEXT_MAPPING, (1.2 : ℚ) ≤ kv.2.confidence_boost) ∧
      (∀ p : Product, Rec.gatedProduct top0.2 ocr = some p →
        p.confidence_boost = 0.85 → top0.2 ≤ 0.4) := by
  intro top0 rest ocr cats h1 h2
  have hreg : ∀ kv ∈ Rec.PRODUCT_TEXT_MAPPING, (mkRat 6 5 : ℚ) ≤ kv.2.confidence_boost := by
    decide
  have h12 : (1.2 : ℚ) = mkRat 6 5 := by norm_num [Rat.mkRat_eq_div]
  have h04 : (0.4 : ℚ) = mkRat 2 5 := by norm_num [Rat.mkRat_eq_div]
  have h085 : (0.85 : ℚ) = mkRat 85 100 := by norm_num [Rat.mkRat_eq_div]
  have hreg2 : ∀ kv ∈ Rec.PRODUCT_TEXT_MAPPING, (1.2 : ℚ) ≤ kv.2.confidence_boost := by
    intro kv hkv
    rw [h12]
    exact hreg kv hkv
  refine ⟨?_, hreg2, ?_⟩
  · intro e he hibt v hv hvibt
    rw [Rec.predict] at he hv
    have he1 := List.mem_of_mem_take he
    obtain ⟨p, hp, rfl⟩ := Rec.strict_mem_assemble_text _ _ _ _ _ _ he1 hibt
    obtain ⟨hmean, hid, hgate, hspec⟩ := Rec.gatedProduct_inv _ _ _ hp
    have hv1 := List.mem_of_mem_take hv
    rw [Rec.assembleFull] at hv1
    have hvconf : ∃ pr ∈ top0 :: rest, v.confidence = pr.2 := by
      rcases List.mem_append.1 hv1 with hv2 | hv2
      · rw [hp] at hv2
        simp only [Rec.textResults] at hv2
        have := List.mem_singleton.1 hv2
        subst this
        simp [Rec.textEntry] at hvibt
      · exact (visEntries_mem _ _ _ _ _ _ hv2).2
    obtain ⟨pr, hpr, hveq⟩ := hvconf
    have hvle : v.confidence ≤ top0.2 := by
      rcases List.mem_cons.1 hpr with h3 | hpr2
      · subst h3; exact le_of_eq hveq
      · rw [hveq]; exact h2 pr hpr2
    rcases Rec.identify_boost _ _ hid with hb | ⟨kv, hkv, rfl⟩
    · have htc2 : top0.2 ≤ mkRat 2 5 := by
        by_contra hc
        have h6 := hspec (lt_of_not_le hc)
        rw [hb] at h6
        exact absurd h6 (by decide)
      show v.confidence < qmul (mkRat 19 20) p.confidence_boost
      rw [hb]
      calc v.confidence ≤ top0.2 := hvle
        _ ≤ mkRat 2 5 := htc2
        _ < qmul (mkRat 19 20) (mkRat 85 100) := by decide
    · have hbge : mkRat 6 5 ≤ kv.2.confidence_boost := hreg kv hkv
      show v.confidence < qmul (mkRat 19 20) kv.2.confidence_boost
      rw [qmul_eq]
      have h1920 : (mkRat 19 20 : ℚ) = 19 / 20 := by norm_num [Rat.mkRat_eq_div]
      have h65 : (mkRat 6 5 : ℚ) = 6 / 5 := by norm_num [Rat.mkRat_eq_div]
      rw [h1920]
      rw [h65] at hbge
      have hmul : (19 / 20 : ℚ) * (6 / 5) ≤ 19 / 20 * kv.2.confidence_boost :=
        mul_le_mul_of_nonneg_left hbge (by norm_num)
      linarith [hvle, h1, hmul]
  · intro p hp hb
    obtain ⟨-, -, -, hspec⟩ := Rec.gatedProduct_inv _ _ _ hp
    rw [h04]
    by_contra hc
    have h6 := hspec (lt_of_not_le hc)
    rw [hb, h085] at h6
    exact absurd h6 (by decide)

/-- Claim C9 (witness): at a concrete run, the visual entry's 0.5 lies
strictly below the text entry's 1.425. -/
theorem claim_C9_witness :
    (⟨0, [], [], mkRat 1 2, none, false⟩ : PredEntry).confidence <
      (⟨-1, "Vollmilch".data, "Vollmilch".data, mkRat 57 40,
        some ("Vollmilch und Butter".data), true⟩ : PredEntry).confidence :=
  (claim_C9_thm (0, mkRat 1 2) [(1, mkRat 3 10)] ("Vollmilch und Butter".data) (fun _ => [])
      (by decide) (by decide)).1
    ⟨-1, "Vollmilch".data, "Vollmilch".data, mkRat 57 40,
      some ("Vollmilch und Butter".data), true⟩ (by decide) (by decide)
    ⟨0, [], [], mkRat 1 2, none, false⟩ (by decide) (by decide)

/-- Claim C10: `image_recognition.py`'s `predict` emits a text-based entry
only when the strict meaningfulness filter accepted the extracted text —
`identify_product_from_text` sits behind that gate — so a text containing a
registry keyword (`"Mehl €€€€"` contains `"Mehl"`) still yields no
text-based entry when the filter rejects it. -/
theorem claim_C10_thm :
    (∀ (top0 : ℕ × ℚ) (rest : List (ℕ × ℚ)) (ocr : List Char) (cats : ℕ → List Char)
       (e : PredEntry), e ∈ Rec.predict top0 rest ocr cats → e.identified_by_text = true →
         Rec.is_meaningful_text ocr = true) ∧
    (containsSub (lowerList ("Mehl".data)) (lowerList ("Mehl €€€€".data)) = true ∧
     Rec.is_meaningful_text ("Mehl €€€€".data) = false ∧
     (Rec.predict (0, mkRat 1 2) [(1, mkRat 1 100)] ("Mehl €€€€".data) (fun _ => [])).all
        (fun e => !e.identified_by_text) = true) := by
  constructor
  · intro top0 rest ocr cats e he hibt
    rw [Rec.predict] at he
    have he1 := List.mem_of_mem_take he
    obtain ⟨p, hp, rfl⟩ := Rec.strict_mem_assemble_text _ _ _ _ _ _ he1 hibt
    exact (Rec.gatedProduct_inv _ _ _ hp).1
  · exact ⟨by decide, by decide, by decide⟩

/-- Claim C10 (witness): the meaningfulness gate observed open at a
concrete run that did emit a text entry. -/
theorem claim_C10_witness :
    Rec.is_meaningful_text ("Vollmilch und Butter".data) = true :=
  claim_C10_thm.1 (0, mkRat 1 2) [(1, mkRat 1 100)] ("Vollmilch und Butter".data) (fun _ => [])
    ⟨-1, "Vollmilch".data, "Vollmilch".data, mkRat 57 40,
      some ("Vollmilch und Butter".data), true⟩ (by decide) (by decide)
